import Mathlib

set_option maxRecDepth 10000

/-
Verification of the glowing-sphere arcade game simulation core.

The definitions below are shallow embeddings of the JavaScript sources:
machine arithmetic is modelled over ℕ/ℤ with explicit reduction mod 2^32
or 2^31, JavaScript number arithmetic that stays on integers below 2^53 is
exact, and the one place where products exceed 2^53 (the linear-congruential
step of SeededRandom) is modelled with explicit round-to-nearest-even at 53
significant bits.  Real-valued game quantities (timers, positions,
velocities) are modelled over ℚ.
-/

/-! ## Arena shapes and level cycling (src/utils/Constants.js, ARENA) -/

/-- Arena shape tags, one per entry of ARENA.SHAPES. -/
inductive Shape where
  | rectangle
  | circle
  | oval
  | diamond
  | octagon
  | cross
  | roundedRect
  | hexagon
deriving DecidableEq, Repr

/-- Shape list built inside ARENA.getShapeForLevel, in source order. -/
def shapeCycle : List Shape :=
  [Shape.rectangle, Shape.oval, Shape.diamond, Shape.hexagon,
   Shape.circle, Shape.octagon, Shape.cross, Shape.roundedRect]

/-- ARENA.getShapeForLevel: every 5th level is the octagon special case,
otherwise the level indexes a cycle of shapeCycle.length shapes. -/
def getShapeForLevel (level : ℕ) : Shape :=
  if level % 5 = 0 then Shape.octagon
  else shapeCycle.getD ((level - 1) % shapeCycle.length) Shape.rectangle

/-- Seven-shape cycle as described by the spec text (cycle of 7 shapes with
octagon split out as the every-5th-level special case); used only to state
the claimed behaviour for comparison with the source. -/
def specShapeCycle7 : List Shape :=
  [Shape.rectangle, Shape.oval, Shape.diamond, Shape.hexagon,
   Shape.circle, Shape.cross, Shape.roundedRect]

/-! ## Reward calculator (src/core/Game.js calculateCoinsReward, REWARDS) -/

/-- Game.calculateCoinsReward with the REWARDS constants inlined
(BASE_COINS 10, COINS_PER_LEVEL 5, TARGET_TIME_BASE 60,
TARGET_TIME_PER_LEVEL 10, TIME_BONUS_MULTIPLIER 2, LIVES_BONUS 10,
MIN_COINS 5).  coinBonus is the optional activePowerUpEffects.coinBonus
entry; a JavaScript falsy value (absent or 0) skips the scaling branch. -/
def calculateCoinsReward (level : ℕ) (timeTaken : ℚ) (lives : ℤ)
    (coinBonus : Option ℚ) : ℤ :=
  let baseCoins : ℤ := 10 + level * 5
  let targetTime : ℚ := 60 + level * 10
  let timeBonus : ℤ := max 0 (Int.floor ((targetTime - timeTaken) * 2))
  let livesBonus : ℤ := lives * 10
  let totalCoins : ℤ := baseCoins + timeBonus + livesBonus
  let scaledCoins : ℤ :=
    match coinBonus with
    | some b => if b = 0 then totalCoins else Int.floor ((totalCoins : ℚ) * (1 + b))
    | none => totalCoins
  max 5 scaledCoins

/-! ## Theorems for claims C5 and C7 -/

/-- Claim C5 (counterexample): getShapeForLevel 8 does not return the shape
at position (8 - 1) mod 7 of a 7-shape cycle.  The code cycles through 8
shapes, so level 8 yields the rounded rectangle, while position
(8 - 1) mod 7 = 0 of the claimed 7-shape cycle is the rectangle, which the
claim itself pins as the shape for level 1. -/
theorem shape_cycle_seven_counterexample :
    getShapeForLevel 8 = Shape.roundedRect ∧
    specShapeCycle7.getD ((8 - 1) % 7) Shape.rectangle = Shape.rectangle ∧
    getShapeForLevel 1 = Shape.rectangle ∧
    Shape.roundedRect ≠ Shape.rectangle := by
  decide

/-- Claim C5 (amended): the shape cycle has 8 entries; getShapeForLevel 5
and getShapeForLevel 10 return the octagon special case, getShapeForLevel 1
returns the first shape of the cycle, and getShapeForLevel 8 returns the
shape at cycle position (8 - 1) mod 8, the rounded rectangle. -/
theorem shape_for_level_spec :
    getShapeForLevel 5 = Shape.octagon ∧
    getShapeForLevel 10 = Shape.octagon ∧
    getShapeForLevel 1 = shapeCycle.getD 0 Shape.rectangle ∧
    shapeCycle.length = 8 ∧
    getShapeForLevel 8 = shapeCycle.getD ((8 - 1) % 8) Shape.rectangle ∧
    getShapeForLevel 8 = Shape.roundedRect := by
  decide

/-- Claim C7: with the default reward constants and no coin-bonus effect,
level 1, 3 remaining lives and 40 seconds elapsed yield exactly 105 coins
(baseCoins 15, timeBonus 60, livesBonus 30, max with the 5-coin minimum). -/
theorem coins_reward_scenario : calculateCoinsReward 1 40 3 none = 105 := by
  norm_num [calculateCoinsReward]

/-! ## SeededRandom (src/utils/SeededRandom.js)

The generator state is a JavaScript number that the code keeps in
[0, 2^31] (the hash is an absolute value of a signed 32-bit integer, so it
can reach 2^31; every later state is reduced by the mask 0x7fffffff).  The
step multiplies the state by 1103515245; for states of 8162278 and above
the product exceeds 2^53, so the multiplication and the following addition
round to 53 significant bits before the ToInt32 conversion performed by the
mask.  fl53 below is exact round-to-nearest-even at 53 bits for arguments
below 2^63, covering every value that occurs here. -/

/-- Exponent of the unit in the last place of a 64-bit-double value in
[2^53, 2^63): the width of the low bits discarded by rounding. -/
def ulpExp (n : ℕ) : ℕ :=
  if n < 2 ^ 54 then 1 else if n < 2 ^ 55 then 2 else if n < 2 ^ 56 then 3
  else if n < 2 ^ 57 then 4 else if n < 2 ^ 58 then 5 else if n < 2 ^ 59 then 6
  else if n < 2 ^ 60 then 7 else if n < 2 ^ 61 then 8 else if n < 2 ^ 62 then 9
  else 10

/-- Round a natural number to the nearest 64-bit-double value
(round-to-nearest, ties to even), exact for arguments below 2^63.  The low
ulpExp n bits are discarded; the quotient is incremented when the remainder
exceeds half an ulp, or equals half an ulp with an odd quotient. -/
def fl53 (n : ℕ) : ℕ :=
  if n < 2 ^ 53 then n
  else if 2 ^ (ulpExp n - 1) < n % 2 ^ ulpExp n ∨
      (n % 2 ^ ulpExp n = 2 ^ (ulpExp n - 1) ∧ (n / 2 ^ ulpExp n) % 2 = 1) then
    (n / 2 ^ ulpExp n + 1) * 2 ^ ulpExp n
  else (n / 2 ^ ulpExp n) * 2 ^ ulpExp n

/-- One step of SeededRandom.next on the state: the JavaScript evaluation of
(seed * 1103515245 + 12345) & 0x7fffffff, with each arithmetic operation
rounded to double precision and the bitmask acting as reduction mod 2^31. -/
def seedNext (s : ℕ) : ℕ :=
  fl53 (fl53 (s * 1103515245) + 12345) % 2 ^ 31

/-- Value returned by SeededRandom.next: the updated seed divided by
0x7fffffff = 2^31 - 1 (the division itself is exact here in the model;
its double rounding error is far below the gaps relevant to the claims). -/
def nextValue (s : ℕ) : ℚ :=
  (s : ℚ) / (2 ^ 31 - 1)

/-- ToInt32: reduce an integer to the signed 32-bit range. -/
def int32 (z : ℤ) : ℤ :=
  (z + 2 ^ 31) % 2 ^ 32 - 2 ^ 31

/-- One character step of SeededRandom.hashString:
hash = ((hash << 5) - hash) + char followed by hash = hash & hash.
The shift is 32-bit, the subtraction and addition are exact doubles, and
the self-AND is a ToInt32 conversion. -/
def hashStep (h : ℤ) (c : ℕ) : ℤ :=
  int32 (int32 (h * 32) - h + c)

/-- SeededRandom.hashString on a string given as its character codes. -/
def hashString (cs : List ℕ) : ℤ :=
  cs.foldl hashStep 0

/-- Math.abs(hash) or 1 when the hash is 0: the initial generator state. -/
def seedOfCodes (cs : List ℕ) : ℕ :=
  let h := hashString cs
  if h = 0 then 1 else h.natAbs

/-- Decimal digits of a natural number, most significant first; fuel-based
so that it reduces definitionally (64 digits cover every value used). -/
def decDigitsGo : ℕ → ℕ → List ℕ
  | 0, _ => []
  | fuel + 1, n => if n = 0 then [] else decDigitsGo fuel (n / 10) ++ [n % 10]

/-- Character codes of the decimal string produced by Number.toString for a
natural number, as used when clone passes originalSeed back into the
constructor. -/
def decCodes (n : ℕ) : List ℕ :=
  if n = 0 then [48] else (decDigitsGo 64 n).map (fun d => 48 + d)

/-- SeededRandom state: current seed and the originalSeed stored by the
constructor. -/
structure SeededRandom where
  seed : ℕ
  originalSeed : ℕ
deriving DecidableEq, Repr

/-- SeededRandom constructor from a string given as character codes. -/
def mkSeededRandom (cs : List ℕ) : SeededRandom :=
  ⟨seedOfCodes cs, seedOfCodes cs⟩

/-- SeededRandom.next: advance the state and return the value in one step. -/
def SeededRandom.next (g : SeededRandom) : SeededRandom × ℚ :=
  let s := seedNext g.seed
  ({ g with seed := s }, nextValue s)

/-- SeededRandom.reset: restore the stored original seed. -/
def SeededRandom.reset (g : SeededRandom) : SeededRandom :=
  { g with seed := g.originalSeed }

/-- SeededRandom.clone: construct a fresh generator from originalSeed
(a number, so the constructor hashes its decimal string) and then copy the
current seed over. -/
def SeededRandom.clone (g : SeededRandom) : SeededRandom :=
  { seed := g.seed, originalSeed := seedOfCodes (decCodes g.originalSeed) }

/-- Character codes of the string "abc". -/
def abcCodes : List ℕ := [97, 98, 99]

/-- Stream of the next n values drawn from a generator. -/
def valsFrom : SeededRandom → ℕ → List ℚ
  | _, 0 => []
  | g, n + 1 => g.next.2 :: valsFrom g.next.1 n

/-! ### Rounding lemmas for the generator step -/

theorem ulpExp_pos (n : ℕ) : 1 ≤ ulpExp n := by
  unfold ulpExp
  split_ifs <;> omega

theorem ulpExp_lower (n : ℕ) (h : 2 ^ 53 ≤ n) : 2 ^ (52 + ulpExp n) ≤ n := by
  unfold ulpExp
  split_ifs <;> norm_num at * <;> omega

theorem fl53_of_lt {n : ℕ} (h : n < 2 ^ 53) : fl53 n = n := by
  unfold fl53
  rw [if_pos h]

theorem fl53_even {n : ℕ} (h : 2 ^ 53 ≤ n) : 2 ∣ fl53 n := by
  unfold fl53
  rw [if_neg (Nat.not_lt.mpr h)]
  have hk := ulpExp_pos n
  have h2 : (2 : ℕ) ∣ 2 ^ ulpExp n := dvd_pow_self 2 (by omega)
  split_ifs <;> exact Dvd.dvd.mul_left h2 _

theorem fl53_ge {n : ℕ} (h : 2 ^ 53 ≤ n) : 2 ^ 53 ≤ fl53 n := by
  have hl := ulpExp_lower n h
  have hk := ulpExp_pos n
  unfold fl53
  rw [if_neg (Nat.not_lt.mpr h)]
  have hq : 2 ^ 52 ≤ n / 2 ^ ulpExp n := by
    rw [Nat.le_div_iff_mul_le (Nat.pow_pos (by norm_num)), ← pow_add]
    exact hl
  have hbase : 2 ^ 53 ≤ (n / 2 ^ ulpExp n) * 2 ^ ulpExp n := by
    calc (2 : ℕ) ^ 53 = 2 ^ 52 * 2 ^ 1 := by norm_num
    _ ≤ (n / 2 ^ ulpExp n) * 2 ^ ulpExp n :=
      Nat.mul_le_mul hq (Nat.pow_le_pow_right (by norm_num) hk)
  split_ifs
  · exact le_trans hbase (Nat.mul_le_mul_right _ (Nat.le_succ _))
  · exact hbase

theorem seedNext_lt (s : ℕ) : seedNext s < 2 ^ 31 :=
  Nat.mod_lt _ (by norm_num)

/-- No state below 2^53 / 1103515245 maps onto 2^31 - 1 under the exact
congruential step: the unique residue that would is 230538014, whose
product already exceeds 2^53. -/
theorem lcg_no_small_preimage (s : ℕ)
    (h2 : s * 1103515245 + 12345 < 9007199254740992)
    (hEq : (s * 1103515245 + 12345) % 2147483648 = 2147483647) : False := by
  have hsmall : s < 2147483648 := by
    clear hEq
    omega
  have key : (230538014 * 1103515245 + 12345) % 2147483648 = 2147483647 := by
    norm_num
  have hm : Nat.ModEq 2147483648 (s * 1103515245 + 12345)
      (230538014 * 1103515245 + 12345) := by
    unfold Nat.ModEq
    rw [hEq, key]
  have hm2 : Nat.ModEq 2147483648 (s * 1103515245) (230538014 * 1103515245) :=
    Nat.ModEq.add_right_cancel' 12345 hm
  have hg : Nat.gcd 2147483648 1103515245 = 1 := by
    have h : Nat.Coprime (2 ^ 31) 1103515245 :=
      Nat.Coprime.pow_left 31 (by rw [Nat.coprime_two_left]; decide)
    simp at h
    exact h
  have hm3 : Nat.ModEq 2147483648 s 230538014 :=
    Nat.ModEq.cancel_right_of_coprime hg hm2
  have hs2 : s % 2147483648 = 230538014 % 2147483648 := hm3
  rw [Nat.mod_eq_of_lt hsmall] at hs2
  norm_num at hs2
  subst hs2
  norm_num at h2

theorem seedNext_ne_top (s : ℕ) : seedNext s ≠ 2 ^ 31 - 1 := by
  intro hEq
  unfold seedNext at hEq
  by_cases h1 : s * 1103515245 < 2 ^ 53
  · rw [fl53_of_lt h1] at hEq
    by_cases h2 : s * 1103515245 + 12345 < 2 ^ 53
    · rw [fl53_of_lt h2] at hEq
      norm_num at hEq h2
      exact lcg_no_small_preimage s h2 hEq
    · have he : 2 ∣ fl53 (s * 1103515245 + 12345) % 2 ^ 31 :=
        (Nat.dvd_mod_iff (by norm_num)).mpr (fl53_even (Nat.not_lt.mp h2))
      rw [hEq] at he
      norm_num at he
  · have hge : 2 ^ 53 ≤ fl53 (s * 1103515245) := fl53_ge (Nat.not_lt.mp h1)
    have he : 2 ∣ fl53 (fl53 (s * 1103515245) + 12345) % 2 ^ 31 :=
      (Nat.dvd_mod_iff (by norm_num)).mpr
        (fl53_even (le_trans hge (Nat.le_add_right _ _)))
    rw [hEq] at he
    norm_num at he

theorem valsFrom_congr (n : ℕ) (g₁ g₂ : SeededRandom) (h : g₁.seed = g₂.seed) :
    valsFrom g₁ n = valsFrom g₂ n := by
  induction n generalizing g₁ g₂ with
  | zero => rfl
  | succ n ih =>
    show g₁.next.2 :: valsFrom g₁.next.1 n = g₂.next.2 :: valsFrom g₂.next.1 n
    have h2 : g₁.next.2 = g₂.next.2 := by simp [SeededRandom.next, h]
    have h1 : g₁.next.1.seed = g₂.next.1.seed := by simp [SeededRandom.next, h]
    rw [h2, ih _ _ h1]

/-! ### Theorems for claims C1, C8 and C10 -/

/-- Claim C1 (counterexample): starting from the reachable state of
SeededRandom("abc"), the value returned by next() is not state divided by
2^31 (the divisor in the code is 0x7fffffff = 2^31 - 1), and one call
later the state update disagrees with the exact formula
(state * 1103515245 + 12345) mod 2^31, because the product exceeds 2^53 and
is rounded to double precision before the mask is applied. -/
theorem next_formula_counterexample :
    (mkSeededRandom abcCodes).next.2 ≠
      ((mkSeededRandom abcCodes).next.1.seed : ℚ) / 2 ^ 31 ∧
    (mkSeededRandom abcCodes).next.1.next.1.seed ≠
      ((mkSeededRandom abcCodes).next.1.seed * 1103515245 + 12345) % 2 ^ 31 := by
  constructor
  · have h : seedNext (seedOfCodes abcCodes) = 1897549299 := by decide
    show nextValue (seedNext (seedOfCodes abcCodes)) ≠
      ((seedNext (seedOfCodes abcCodes) : ℕ) : ℚ) / 2 ^ 31
    rw [h]
    norm_num [nextValue]
  · decide

/-- Claim C1 (amended): for every state s in the range the code keeps it in
(s ≤ 2^31), next() maps the state to the double-precision evaluation of
s * 1103515245 + 12345 reduced mod 2^31 — which agrees with the exact
formula whenever the intermediate value stays below 2^53 — and the returned
value newState / (2^31 - 1) lies in [0, 1): the new state stays below
2^31 and never reaches 2^31 - 1, so the value is strictly below 1. -/
theorem next_step_spec (s : ℕ) (_hs : s ≤ 2 ^ 31) :
    seedNext s < 2 ^ 31 ∧
    (s * 1103515245 + 12345 < 2 ^ 53 →
      seedNext s = (s * 1103515245 + 12345) % 2 ^ 31) ∧
    0 ≤ nextValue (seedNext s) ∧ nextValue (seedNext s) < 1 := by
  refine ⟨seedNext_lt s, ?_, ?_, ?_⟩
  · intro h
    unfold seedNext
    rw [fl53_of_lt (lt_of_le_of_lt (Nat.le_add_right _ _) h), fl53_of_lt h]
  · unfold nextValue
    exact div_nonneg (Nat.cast_nonneg _) (by norm_num)
  · have hlt := seedNext_lt s
    have hne := seedNext_ne_top s
    have hle : seedNext s ≤ 2147483646 := by
      norm_num at hlt hne
      omega
    unfold nextValue
    rw [div_lt_one (by norm_num)]
    calc ((seedNext s : ℕ) : ℚ) ≤ (2147483646 : ℕ) := by exact_mod_cast hle
    _ < 2 ^ 31 - 1 := by norm_num

/-- Claim C1 (witness): the amended step description instantiated at the
initial state of SeededRandom("abc"). -/
theorem next_step_spec_witness :
    seedNext 96354 < 2 ^ 31 ∧
    (96354 * 1103515245 + 12345 < 2 ^ 53 →
      seedNext 96354 = (96354 * 1103515245 + 12345) % 2 ^ 31) ∧
    0 ≤ nextValue (seedNext 96354) ∧ nextValue (seedNext 96354) < 1 :=
  next_step_spec 96354 (by norm_num)

/-- Claim C8: SeededRandom("abc").next() is the fixed rational
1897549299 / 2147483647 — the generator is a deterministic function of the
seed string and call sequence — and for every generator state, clone
copies the current seed, so the clone produces the same stream of
subsequent next() values as the original. -/
theorem seeded_random_reproducible :
    (mkSeededRandom abcCodes).next.2 = 1897549299 / 2147483647 ∧
    ∀ (g : SeededRandom) (n : ℕ), valsFrom g.clone n = valsFrom g n := by
  constructor
  · have h : seedNext (seedOfCodes abcCodes) = 1897549299 := by decide
    show nextValue (seedNext (seedOfCodes abcCodes)) = 1897549299 / 2147483647
    rw [h]
    norm_num [nextValue]
  · intro g n
    exact valsFrom_congr n g.clone g rfl

/-- Claim C10: for the seed string "abc", clone followed by reset does not
restore the original generator: clone rebuilds originalSeed by hashing the
decimal string of the already-hashed seed (hash "abc" = 96354, but
hash "96354" = 54300117), so the first next() after clone-then-reset
differs from the first next() of a fresh SeededRandom("abc"). -/
theorem clone_reset_diverges :
    (mkSeededRandom abcCodes).clone.reset.next.2 ≠ (mkSeededRandom abcCodes).next.2 ∧
    (mkSeededRandom abcCodes).clone.originalSeed ≠
      (mkSeededRandom abcCodes).originalSeed := by
  constructor
  · have h1 : seedNext (mkSeededRandom abcCodes).clone.reset.seed = 465402344 := by
      decide
    have h2 : seedNext (mkSeededRandom abcCodes).seed = 1897549299 := by decide
    show nextValue (seedNext (mkSeededRandom abcCodes).clone.reset.seed) ≠
      nextValue (seedNext (mkSeededRandom abcCodes).seed)
    rw [h1, h2]
    norm_num [nextValue]
  · decide

/-! ## Collision system (src/systems/CollisionSystem.js) and damage handling
(src/core/Game.js handleDamage / checkShieldActivation)

The collision-system state consists of the two countdown timers and the
shield flag.  The shared shield/invincibility logic of
handlePlayerObstacleCollision and handlePlayerEnemyCollision is modelled by
handleHit; the Boolean contact argument abstracts the geometric test
(checkCollision or checkCircleCollision) and the push applied to the player
does not touch this state. -/

/-- Math.max on rationals. -/
def jsMaxQ (a b : ℚ) : ℚ :=
  if a ≤ b then b else a

/-- CollisionSystem state fields. -/
structure CollisionState where
  invincibilityTime : ℚ
  shieldActive : Bool
  shieldTimeRemaining : ℚ
deriving DecidableEq, Repr

/-- CollisionSystem constructor and reset both produce this state. -/
def CollisionState.initial : CollisionState :=
  ⟨0, false, 0⟩

/-- CollisionSystem.update: clamp both timers at zero and recompute the
shield flag from the remaining shield time. -/
def CollisionState.update (dt : ℚ) (s : CollisionState) : CollisionState :=
  ⟨jsMaxQ 0 (s.invincibilityTime - dt),
   decide (0 < jsMaxQ 0 (s.shieldTimeRemaining - dt)),
   jsMaxQ 0 (s.shieldTimeRemaining - dt)⟩

/-- CollisionSystem.activateShield. -/
def CollisionState.activateShield (d : ℚ) (s : CollisionState) : CollisionState :=
  ⟨s.invincibilityTime, true, d⟩

/-- Shared body of handlePlayerObstacleCollision and
handlePlayerEnemyCollision: early return when invincible or shielded;
otherwise, on contact, report the onDamage argument (false exactly when
shieldTimeRemaining is non-positive and the shield flag is off) and start
the invincibility window.  The second component is the argument passed to
onDamage, or none when onDamage is not invoked. -/
def CollisionState.handleHit (s : CollisionState) (contact : Bool) :
    CollisionState × Option Bool :=
  if 0 < s.invincibilityTime ∨ s.shieldActive = true then (s, none)
  else if contact = true then
    if s.shieldTimeRemaining ≤ 0 ∧ s.shieldActive = false then
      ({ s with invincibilityTime := 2 }, some false)
    else
      ({ s with invincibilityTime := 2 }, some true)
  else (s, none)

/-- JavaScript truthiness of an optional numeric power-up effect. -/
def qTruthy : Option ℚ → Bool
  | none => false
  | some d => if d = 0 then false else true

/-- Game checkShieldActivation: activate the shield with the power-up
duration when the hit was not shielded and the effect is present. -/
def checkShieldActivation (wasShielded : Bool) (shieldDuration : Option ℚ)
    (s : CollisionState) : CollisionState :=
  if wasShielded = false ∧ qTruthy shieldDuration = true then
    s.activateShield (shieldDuration.getD 0)
  else s

/-- Game handleDamage: possibly activate the shield, then decrement lives. -/
def handleDamage (wasShielded : Bool) (shieldDuration : Option ℚ)
    (s : CollisionState) (lives : ℤ) : CollisionState × ℤ :=
  (checkShieldActivation wasShielded shieldDuration s, lives - 1)

/-- One collision-handler call wired to the Game onDamage callback, in the
order of the source: gate check, onDamage (which may activate the shield
and decrements lives), then invincibilityTime is set to
INVINCIBILITY_DURATION = 2.0. -/
def gameHit (s : CollisionState) (lives : ℤ) (shieldDuration : Option ℚ)
    (contact : Bool) : CollisionState × ℤ :=
  if 0 < s.invincibilityTime ∨ s.shieldActive = true then (s, lives)
  else if contact = true then
    if s.shieldTimeRemaining ≤ 0 ∧ s.shieldActive = false then
      ({ (handleDamage false shieldDuration s lives).1 with invincibilityTime := 2 },
       (handleDamage false shieldDuration s lives).2)
    else
      ({ (handleDamage true shieldDuration s lives).1 with invincibilityTime := 2 },
       (handleDamage true shieldDuration s lives).2)
  else (s, lives)

/-- Collision-system states reachable from the initial state by any
sequence of update, activateShield, reset and handler calls. -/
inductive ReachableCS : CollisionState → Prop where
  | init : ReachableCS CollisionState.initial
  | update {s : CollisionState} (dt : ℚ) : ReachableCS s → ReachableCS (s.update dt)
  | shield {s : CollisionState} (d : ℚ) :
      ReachableCS s → ReachableCS (s.activateShield d)
  | reset {s : CollisionState} : ReachableCS s → ReachableCS CollisionState.initial
  | hit {s : CollisionState} (c : Bool) :
      ReachableCS s → ReachableCS (s.handleHit c).1

theorem handleHit_shield_fields (s : CollisionState) (c : Bool) :
    (s.handleHit c).1.shieldActive = s.shieldActive ∧
    (s.handleHit c).1.shieldTimeRemaining = s.shieldTimeRemaining := by
  unfold CollisionState.handleHit
  split_ifs <;> simp

theorem jsMaxQ_zero_nonneg (x : ℚ) : x ≤ jsMaxQ 0 x := by
  unfold jsMaxQ
  split_ifs with h
  · exact le_refl x
  · exact le_of_lt (lt_of_not_le h)

/-- Invariant of every reachable collision state: when the shield flag is
off, no shield time remains. -/
theorem reachable_shield_inv {s : CollisionState} (h : ReachableCS s) :
    s.shieldActive = false → s.shieldTimeRemaining ≤ 0 := by
  induction h with
  | init =>
    intro
    norm_num [CollisionState.initial]
  | update dt hr ih =>
    intro hAct
    simp only [CollisionState.update, decide_eq_false_iff_not, not_lt] at hAct
    simpa [CollisionState.update] using hAct
  | shield d hr ih =>
    intro hAct
    simp [CollisionState.activateShield] at hAct
  | reset hr =>
    intro
    norm_num [CollisionState.initial]
  | hit c hr ih =>
    rename_i t
    intro hAct
    have hf := handleHit_shield_fields t c
    rw [hf.2]
    exact ih (hf.1 ▸ hAct)

/-- Claim C9: in every reachable collision-system state, a handler call
never invokes onDamage with argument true: the early-return guard requires
the shield flag to be off, and no reachable state combines an off shield
flag with positive remaining shield time, so the shield-damage branch is
unreachable. -/
theorem onDamage_argument_never_true {s : CollisionState} (h : ReachableCS s)
    (c : Bool) : (s.handleHit c).2 ≠ some true := by
  intro hEq
  unfold CollisionState.handleHit at hEq
  by_cases h1 : 0 < s.invincibilityTime ∨ s.shieldActive = true
  · rw [if_pos h1] at hEq
    exact Option.noConfusion hEq
  · rw [if_neg h1] at hEq
    by_cases h2 : c = true
    · rw [if_pos h2] at hEq
      have hAct : s.shieldActive = false := by
        rcases Bool.eq_false_or_eq_true s.shieldActive with ht | hf
        · exact absurd (Or.inr ht) h1
        · exact hf
      rw [if_pos ⟨reachable_shield_inv h hAct, hAct⟩] at hEq
      simp at hEq
    · rw [if_neg h2] at hEq
      exact Option.noConfusion hEq

/-- Claim C9 (witness): the reachability hypothesis discharged at the
initial state, with a contact in the very first frame. -/
theorem onDamage_argument_never_true_witness :
    (CollisionState.initial.handleHit true).2 ≠ some true :=
  onDamage_argument_never_true ReachableCS.init true

/-- Claim C3 (counterexample): in the fresh collision state with a
shield-duration effect of 2 seconds and 3 lives, the first hit activates
the shield with that duration, yet the lives counter still drops to 2 —
handleDamage decrements lives unconditionally, so the claimed free first
hit does not happen. -/
theorem shield_first_hit_counterexample :
    (gameHit ⟨0, false, 0⟩ 3 (some 2) true).1.shieldActive = true ∧
    (gameHit ⟨0, false, 0⟩ 3 (some 2) true).1.shieldTimeRemaining = 2 ∧
    (gameHit ⟨0, false, 0⟩ 3 (some 2) true).2 ≠ 3 := by
  norm_num [gameHit, handleDamage, checkShieldActivation, qTruthy,
    CollisionState.activateShield]

/-- Claim C3 (amended): on a hit that passes the invincibility/shield gate,
with the shield not already active (and no shield time remaining, as in
every reachable state) and a nonzero shield-duration effect, the shield is
activated with that duration, the invincibility window is started, and the
hit still consumes one life. -/
theorem shield_first_hit_spec (s : CollisionState) (lives : ℤ) (d : ℚ)
    (hInv : s.invincibilityTime ≤ 0) (hAct : s.shieldActive = false)
    (hTime : s.shieldTimeRemaining ≤ 0) (hd : d ≠ 0) :
    gameHit s lives (some d) true = (⟨2, true, d⟩, lives - 1) := by
  have h1 : ¬(0 < s.invincibilityTime ∨ s.shieldActive = true) := by
    rw [not_or]
    exact ⟨not_lt.mpr hInv, by simp [hAct]⟩
  unfold gameHit
  rw [if_neg h1, if_pos rfl, if_pos ⟨hTime, hAct⟩]
  simp [handleDamage, checkShieldActivation, qTruthy, hd,
    CollisionState.activateShield]

/-- Claim C3 (witness): the amended description instantiated at the fresh
state, 3 lives and a 2-second shield effect. -/
theorem shield_first_hit_spec_witness :
    gameHit ⟨0, false, 0⟩ 3 (some 2) true = (⟨2, true, 2⟩, 2) := by
  have h := shield_first_hit_spec ⟨0, false, 0⟩ 3 2 (by norm_num) rfl
    (by norm_num) (by norm_num)
  simpa using h

/-! ## Frame traces for the invincibility window (claim C6) -/

/-- Events a frame sequence can apply to the collision state: a timer
update, a handler call with its contact outcome and the shield-duration
effect in force, or a direct shield activation. -/
inductive FrameEvent where
  | upd (dt : ℚ)
  | hit (contact : Bool) (shieldDuration : Option ℚ)
  | shield (d : ℚ)

/-- Run a sequence of frame events on collision state and lives. -/
def runFrames : CollisionState × ℤ → List FrameEvent → CollisionState × ℤ
  | st, [] => st
  | (s, l), FrameEvent.upd dt :: es => runFrames (s.update dt, l) es
  | (s, l), FrameEvent.hit c dur :: es => runFrames (gameHit s l dur c) es
  | (s, l), FrameEvent.shield d :: es => runFrames (s.activateShield d, l) es

/-- Total simulated time advanced by the update events of a trace. -/
def updTime : List FrameEvent → ℚ
  | [] => 0
  | FrameEvent.upd dt :: es => dt + updTime es
  | _ :: es => updTime es

/-- All update deltas of a trace are nonnegative. -/
def updNonneg : List FrameEvent → Prop
  | [] => True
  | FrameEvent.upd dt :: es => 0 ≤ dt ∧ updNonneg es
  | _ :: es => updNonneg es

theorem updTime_nonneg : ∀ {es : List FrameEvent}, updNonneg es → 0 ≤ updTime es := by
  intro es
  induction es with
  | nil => intro; norm_num [updTime]
  | cons e es ih =>
    intro h
    cases e with
    | upd dt =>
      obtain ⟨h1, h2⟩ := h
      have := ih h2
      simp only [updTime]
      linarith
    | hit c dur => exact ih h
    | shield d => exact ih h

theorem lives_stable_of_invincible :
    ∀ (es : List FrameEvent) (s : CollisionState) (l : ℤ),
      updNonneg es → updTime es < s.invincibilityTime →
      (runFrames (s, l) es).2 = l := by
  intro es
  induction es with
  | nil => intros; rfl
  | cons e es ih =>
    intro s l hnn ht
    cases e with
    | upd dt =>
      obtain ⟨hdt, hnn'⟩ := hnn
      show (runFrames (s.update dt, l) es).2 = l
      apply ih _ _ hnn'
      have ht' : dt + updTime es < s.invincibilityTime := ht
      have h1 : updTime es < s.invincibilityTime - dt := by linarith
      have h2 : s.invincibilityTime - dt ≤ jsMaxQ 0 (s.invincibilityTime - dt) :=
        jsMaxQ_zero_nonneg _
      show updTime es < jsMaxQ 0 (s.invincibilityTime - dt)
      linarith
    | hit c dur =>
      have h0 : (0 : ℚ) ≤ updTime es := updTime_nonneg hnn
      have ht' : updTime es < s.invincibilityTime := ht
      have hpos : 0 < s.invincibilityTime := lt_of_le_of_lt h0 ht'
      have hg : gameHit s l dur c = (s, l) := by
        unfold gameHit
        rw [if_pos (Or.inl hpos)]
      show (runFrames (gameHit s l dur c) es).2 = l
      rw [hg]
      exact ih _ _ hnn ht'
    | shield d =>
      show (runFrames (s.activateShield d, l) es).2 = l
      exact ih _ _ hnn ht

/-- Claim C6: collision handlers ignore contacts while the invincibility
timer is positive; a processed hit starts a 2-second window; and after any
hit, along every frame trace whose nonnegative update deltas sum to less
than 2 seconds of simulated time, the lives counter does not change, even
under continuous contact. -/
theorem invincibility_window :
    (∀ (s : CollisionState) (l : ℤ) (dur : Option ℚ) (c : Bool),
        0 < s.invincibilityTime → gameHit s l dur c = (s, l)) ∧
    (∀ (s : CollisionState) (l : ℤ) (dur : Option ℚ),
        ¬(0 < s.invincibilityTime ∨ s.shieldActive = true) →
        (gameHit s l dur true).1.invincibilityTime = 2) ∧
    (∀ (s : CollisionState) (l : ℤ) (es : List FrameEvent),
        s.invincibilityTime = 2 → updNonneg es → updTime es < 2 →
        (runFrames (s, l) es).2 = l) := by
  refine ⟨?_, ?_, ?_⟩
  · intro s l dur c h
    unfold gameHit
    rw [if_pos (Or.inl h)]
  · intro s l dur h
    unfold gameHit
    rw [if_neg h, if_pos rfl]
    split_ifs <;> rfl
  · intro s l es hinv hnn ht
    exact lives_stable_of_invincible es s l hnn (by rw [hinv]; exact ht)

/-- Claim C6 (witness): the three parts instantiated concretely — a hit is
ignored at invincibility 2, a processed hit sets the window to 2, and a
trace of two contacts separated by 1 + 1/60 seconds loses no life. -/
theorem invincibility_window_witness :
    gameHit ⟨2, false, 0⟩ 3 none true = (⟨2, false, 0⟩, 3) ∧
    (gameHit ⟨0, false, 0⟩ 3 none true).1.invincibilityTime = 2 ∧
    (runFrames (⟨2, false, 0⟩, 3)
      [FrameEvent.upd (1/60), FrameEvent.hit true none,
       FrameEvent.upd 1, FrameEvent.hit true none]).2 = 3 := by
  refine ⟨invincibility_window.1 _ _ _ _ (by norm_num),
    invincibility_window.2.1 _ _ _ (by simp),
    invincibility_window.2.2 _ _ _ rfl ?_ ?_⟩
  · show (0 : ℚ) ≤ 1/60 ∧ ((0 : ℚ) ≤ 1 ∧ True)
    norm_num
  · show (1/60 : ℚ) + (1 + 0) < 2
    norm_num

/-! ## Cross-arena boundary resolution (Player._checkCrossBoundary) and the
containment region of the cross shape (claim C2) -/

/-- Math.abs on rationals. -/
def jsAbs (q : ℚ) : ℚ :=
  if q < 0 then -q else q

/-- Math.sign on rationals. -/
def jsSign (q : ℚ) : ℚ :=
  if 0 < q then 1 else if q < 0 then -1 else 0

/-- Math.min on rationals. -/
def jsMinQ (a b : ℚ) : ℚ :=
  if a ≤ b then a else b

/-- Player._checkCrossBoundary: armWidth 6, armLength min(width, height)/2.
In the corner region (outside both arm bands) the player is pushed toward
the nearer arm band, adjusting only that one coordinate; otherwise the
position is clamped sequentially on each axis against arm-specific
half-extents, negating and damping the velocity component of each clamped
axis.  Input and output are (position, velocity) pairs on the xz-plane. -/
def checkCrossBoundary (width height radius bounce : ℚ)
    (pos vel : ℚ × ℚ) : (ℚ × ℚ) × (ℚ × ℚ) :=
  let armWidth : ℚ := 6
  let armLength := jsMinQ width height / 2
  let inHorizontalArm := jsAbs pos.2 < armWidth / 2
  let inVerticalArm := jsAbs pos.1 < armWidth / 2
  if ¬inHorizontalArm ∧ ¬inVerticalArm ∧
      armWidth / 2 < jsAbs pos.1 ∧ armWidth / 2 < jsAbs pos.2 then
    if jsAbs pos.2 - armWidth / 2 < jsAbs pos.1 - armWidth / 2 then
      ((pos.1, jsSign pos.2 * (armWidth / 2 - radius)),
       (vel.1, vel.2 * (-bounce)))
    else
      ((jsSign pos.1 * (armWidth / 2 - radius), pos.2),
       (vel.1 * (-bounce), vel.2))
  else
    let halfWidth := if inVerticalArm then armWidth / 2 else armLength
    let halfHeight := if inHorizontalArm then armWidth / 2 else armLength
    let px :=
      if pos.1 < -halfWidth + radius then (-halfWidth + radius, vel.1 * (-bounce))
      else (pos.1, vel.1)
    let px' :=
      if halfWidth - radius < px.1 then (halfWidth - radius, px.2 * (-bounce))
      else px
    let pz :=
      if pos.2 < -halfHeight + radius then (-halfHeight + radius, vel.2 * (-bounce))
      else (pos.2, vel.2)
    let pz' :=
      if halfHeight - radius < pz.1 then (halfHeight - radius, pz.2 * (-bounce))
      else pz
    ((px'.1, pz'.1), (px'.2, pz'.2))

/-- The cross containment region for the whole body of a disc of the given
radius: the centre must sit at least one radius inside the union of the
horizontal arm (armLength by armWidth) and the vertical arm. -/
def crossBodyInside (width height radius : ℚ) (p : ℚ × ℚ) : Prop :=
  (jsAbs p.1 + radius ≤ jsMinQ width height / 2 ∧ jsAbs p.2 + radius ≤ 3) ∨
  (jsAbs p.1 + radius ≤ 3 ∧ jsAbs p.2 + radius ≤ jsMinQ width height / 2)

/-- Claim C2: on the cross arena (width 30, height 20, player radius 0.8,
bounce damping 0.3), a single boundary-resolution call on the incoming
position (25, 4) — a corner-region position that overshoots the arm length
by far more than one radius — moves the player to (25, 2.2), whose centre
is 15 units outside the cross region, so the body is not inside the
containment region after resolution. -/
theorem cross_boundary_escape :
    checkCrossBoundary 30 20 (4/5) (3/10) (25, 4) (0, 0) = ((25, 11/5), (0, 0)) ∧
    ¬ crossBodyInside 30 20 (4/5) (25, 11/5) := by
  constructor
  · norm_num [checkCrossBoundary, jsAbs, jsSign, jsMinQ]
  · norm_num [crossBodyInside, jsAbs, jsMinQ]

/-! ## Dash state machine (Player._updateCooldowns / Player._updateDash,
claim C4)

Player.update invokes _updateDash with only deltaTime and the pressed flag,
so the prevDashPressed parameter always takes its default value false: the
rising-edge test degenerates to the pressed flag alone.  The handbrake
fields updated alongside in _updateCooldowns do not interact with the dash
fields and are omitted. -/

/-- Dash-related fields of the player. -/
structure DashState where
  dashActive : Bool
  dashTimeRemaining : ℚ
  dashCooldownRemaining : ℚ
deriving DecidableEq, Repr

/-- Dash part of Player._updateCooldowns. -/
def dashCooldownsTick (dt : ℚ) (s : DashState) : DashState :=
  ⟨if 0 < jsMaxQ 0 (s.dashTimeRemaining - dt) then true else false,
   jsMaxQ 0 (s.dashTimeRemaining - dt),
   jsMaxQ 0 (s.dashCooldownRemaining - dt)⟩

/-- Player._updateDash with DASH_DURATION = 0.3 and DASH_COOLDOWN = 1.5. -/
def updateDash (dashPressed prevDashPressed : Bool) (s : DashState) : DashState :=
  if dashPressed = true ∧ prevDashPressed = false ∧ s.dashActive = false ∧
      s.dashCooldownRemaining ≤ 0 then
    ⟨true, 3/10, 3/2⟩
  else s

/-- One frame of the dash logic as Player.update wires it: cooldown tick,
then _updateDash with the prevDashPressed argument omitted (hence false). -/
def playerDashStep (dt : ℚ) (dashPressed : Bool) (s : DashState) : DashState :=
  updateDash dashPressed false (dashCooldownsTick dt s)

/-- Frames of the dash logic with the button continuously held and a frame
delta of 0.5 seconds, from the initial dash state. -/
def dashRun : ℕ → DashState
  | 0 => ⟨false, 0, 0⟩
  | n + 1 => playerDashStep (1/2) true (dashRun n)

/-- Claim C4: with the dash button held on every frame, the dash activates
on the first frame, expires, and then re-activates as soon as the cooldown
has elapsed (frame 4 at 0.5 seconds per frame), without any release of the
button — the rising-edge requirement is not enforced because
prevDashPressed is never passed through. -/
theorem dash_reactivates_while_held :
    (dashRun 1).dashActive = true ∧ (dashRun 2).dashActive = false ∧
    (dashRun 3).dashActive = false ∧ (dashRun 4).dashActive = true := by
  norm_num [dashRun, playerDashStep, dashCooldownsTick, updateDash, jsMaxQ]
